import Mathlib

/-!
Verification of the Go HTTP server in `main.go` (package `main`).

Modelling conventions:
* A Go string is a byte sequence; we model it as `Str := List Char`, one
  `Char` per byte, so Go's `len` is `List.length`.
* A Go `map[string]string` is modelled as an association list with unique
  keys (`AList`), built by `upsert` (assignment `m[k] = v`) and read by
  `lookup`.  Go map iteration order is unspecified; we emit headers in
  association-list order, and state header claims through `lookup`, which
  is order independent.
* Go's `strings.Split` / `strings.SplitN(_, _, 2)` / `strings.Join` on the
  concrete separators used by the program are embedded as the structural
  functions `splitChar`, `splitCRLF`, `splitN2Char`, `splitN2ColonSpace`
  and `joinCRLF` below.
* `formatResponse` mutates its argument's header map in Go (maps are
  reference values); we model the mutation by returning the updated
  `Response` alongside the output string.  The injected `Date` value comes
  from `time.Now()`, which we pass in as an explicit `now` parameter.
* Route handlers are values of an arbitrary type `α` for the router
  definitions; the connection handler instantiates `α` with
  `Request → Response → Response` (a handler mutates the response in Go).
-/

namespace GoHttp

/-- A Go string, one `Char` per byte. -/
abbrev Str := List Char

/-- Coerce a Lean string literal into the byte-list model. -/
def str (s : String) : Str := s.data

/-- Association-list model of Go's `map[string]string`. -/
abbrev AList := List (Str × Str)

/-- Go map read `m[k]`: value of the key, if present. -/
def lookup : AList → Str → Option Str
  | [], _ => none
  | (k', v') :: m, k => if k' = k then some v' else lookup m k

/-- Go map assignment `m[k] = v`: replace the value if the key is present,
otherwise add the binding. -/
def upsert : AList → Str → Str → AList
  | [], k, v => [(k, v)]
  | (k', v') :: m, k, v => if k' = k then (k', v) :: m else (k', v') :: upsert m k v

/-- Embeds `strings.Split(s, sep)` for a one-byte separator `sep`. -/
def splitChar (sep : Char) : Str → List Str
  | [] => [[]]
  | c :: rest =>
    if c = sep then [] :: splitChar sep rest
    else
      match splitChar sep rest with
      | t :: ts => (c :: t) :: ts
      | [] => [[c]]

/-- Embeds `strings.Split(s, "\r\n")`. -/
def splitCRLF : Str → List Str
  | [] => [[]]
  | '\r' :: '\n' :: rest => [] :: splitCRLF rest
  | c :: rest =>
    match splitCRLF rest with
    | t :: ts => (c :: t) :: ts
    | [] => [[c]]

/-- Embeds `strings.SplitN(s, sep, 2)` for a one-byte separator: `none` when
`sep` does not occur, otherwise the pieces before and after its first
occurrence (Go returns a one- resp. two-element slice). -/
def splitN2Char (sep : Char) : Str → Option (Str × Str)
  | [] => none
  | c :: rest =>
    if c = sep then some ([], rest)
    else (splitN2Char sep rest).map (fun p => (c :: p.1, p.2))

/-- Embeds `strings.SplitN(s, ": ", 2)`: split at the first occurrence of
the two-byte separator `": "`. -/
def splitN2ColonSpace : Str → Option (Str × Str)
  | [] => none
  | ':' :: ' ' :: rest => some ([], rest)
  | c :: rest => (splitN2ColonSpace rest).map (fun p => (c :: p.1, p.2))

/-- Embeds `strings.Join(xs, "\r\n")`. -/
def joinCRLF : List Str → Str
  | [] => []
  | [x] => x
  | x :: xs => x ++ str "\r\n" ++ joinCRLF xs

/-- Decimal digits of a natural number, embedding `strconv.Itoa` on
non-negative values. -/
def natToStr (n : Nat) : Str := Nat.toDigits 10 n

/-- Decimal rendering of a Go `int`, embedding `fmt.Sprintf` with verb d. -/
def intToStr : Int → Str
  | Int.ofNat n => natToStr n
  | Int.negSucc n => '-' :: natToStr (n + 1)

/-- Go struct `Request`. -/
structure Request where
  method : Str
  path : Str
  headers : AList
  body : Str
  queryParams : AList
  deriving Repr, DecidableEq

/-- Go struct `Response`. -/
structure Response where
  statusCode : Int
  headers : AList
  body : Str
  deriving Repr, DecidableEq

/-- Go struct `Route`, generic in the handler representation. -/
structure Route (α : Type) where
  method : Str
  path : Str
  handler : α

/-- `Server.routes` is the ordered route sequence; `AddRoute` appends. -/
def addRoute {α : Type} (routes : List (Route α)) (m p : Str) (h : α) :
    List (Route α) :=
  routes ++ [⟨m, p, h⟩]

/-- Embeds `parseQueryParams`: split the raw target at the first question
mark; when present, split the query string on ampersands and record each
token that contains an equals sign, splitting it at the first one. -/
def parseQueryParams (path : Str) : Str × AList :=
  match splitN2Char '?' path with
  | none => (path, [])
  | some (p, queryString) =>
    (p, (splitChar '&' queryString).foldl
      (fun params param =>
        match splitN2Char '=' param with
        | some (k, v) => upsert params k v
        | none => params)
      [])

/-- Index of the first empty line, embedding the
`for i, line := range lines` search that sets `headerBodySplit`
(`none` stands for the initial `-1`). -/
def firstEmptyIdx : List Str → Option Nat
  | [] => none
  | l :: ls => if l = [] then some 0 else (firstEmptyIdx ls).map (· + 1)

/-- Embeds the header loop of `parseHttpRequest` over `lines[1 : hbs]`:
skip empty lines, split each on the first `": "`, keep two-part splits. -/
def parseHeaderLines (hlines : List Str) : AList :=
  hlines.foldl
    (fun m line =>
      if line = [] then m
      else
        match splitN2ColonSpace line with
        | some (k, v) => upsert m k v
        | none => m)
    []

/-- Embeds `parseHttpRequest`. -/
def parseHttpRequest (requestString : Str) : Request :=
  let lines := splitCRLF requestString
  let firstLine :=
    match lines with
    | [] => ([], [], [])
    | l0 :: _ =>
      match splitChar ' ' l0 with
      | m :: rawPath :: _ =>
        let pq := parseQueryParams rawPath
        (m, pq.1, pq.2)
      | _ => (([] : Str), ([] : Str), ([] : AList))
  let hbs := firstEmptyIdx lines
  let headers :=
    match hbs with
    | none => []
    | some n => parseHeaderLines ((lines.take n).drop 1)
  let body :=
    match hbs with
    | none => []
    | some i =>
      if 0 < i ∧ i < lines.length - 1 then joinCRLF (lines.drop (i + 1))
      else []
  { method := firstLine.1
    path := firstLine.2.1
    headers := headers
    body := body
    queryParams := firstLine.2.2 }

/-- Embeds `matchRoute`: scan the ordered routes, return the first handler
whose method and path both equal the request's; `none` models the Go
result `(nil, false)`. -/
def matchRoute {α : Type} : List (Route α) → Request → Option α
  | [], _ => none
  | r :: rs, req =>
    if r.method = req.method ∧ r.path = req.path then some r.handler
    else matchRoute rs req

/-- Embeds the reason-phrase selection of `formatResponse`: start from
`"OK"`, overwrite with `"Not Found"` when the code is not 200, and in the
`else if` branch (reached only when the code is 200) overwrite with
`"Internal Server Error"` when the code is 500. -/
def statusText (code : Int) : Str :=
  if code ≠ 200 then str "Not Found"
  else if code = 500 then str "Internal Server Error"
  else str "OK"

/-- Embeds `formatResponse`.  Returns the output bytes together with the
response carrying the (possibly extended) header map, since the Go code
mutates `resp.Headers` in place. -/
def formatResponse (now : Str) (resp : Response) : Str × Response :=
  let statusLine :=
    str "HTTP/1.1 " ++ intToStr resp.statusCode ++ [' ']
      ++ statusText resp.statusCode ++ str "\r\n"
  let h1 :=
    match lookup resp.headers (str "Date") with
    | some _ => resp.headers
    | none => upsert resp.headers (str "Date") now
  let h2 :=
    match lookup h1 (str "Content-Length") with
    | some _ => h1
    | none => upsert h1 (str "Content-Length") (natToStr resp.body.length)
  let out :=
    h2.foldl (fun acc kv => acc ++ kv.1 ++ str ": " ++ kv.2 ++ str "\r\n")
      statusLine
      ++ str "\r\n" ++ resp.body
  (out, { resp with headers := h2 })

/-- A route handler as used by `handleConnection`: it may rewrite the
response arbitrarily from the request. -/
abbrev Handler := Request → Response → Response

/-- The default response built at the top of `handleConnection`. -/
def defaultResponse : Response :=
  { statusCode := 200
    headers := upsert (upsert [] (str "Content-Type") (str "text/plain"))
      (str "Server") (str "GoCustomHTTP/1.0")
    body := [] }

/-- The pure core of `handleConnection`: route the parsed request, run the
matched handler on the default response, or produce the 404 response. -/
def buildResponse (routes : List (Route Handler)) (req : Request) : Response :=
  match matchRoute routes req with
  | some h => h req defaultResponse
  | none =>
    { defaultResponse with
        statusCode := 404
        body := str "404 Not Found: " ++ req.path }

/-- Claim-side description of duplicate handling in the query string: the
value carried by the last key–value pair with the given key, if any. -/
def lastVal : List (Str × Str) → Str → Option Str
  | [], _ => none
  | (k', v') :: kvs, k =>
    match lastVal kvs k with
    | some v => some v
    | none => if k' = k then some v' else none

/- Lemmas about the map model. -/

theorem lookup_upsert (m : AList) (k v q : Str) :
    lookup (upsert m k v) q = if k = q then some v else lookup m q := by
  induction m with
  | nil => simp [upsert, lookup]
  | cons kv m ih =>
    obtain ⟨k', v'⟩ := kv
    by_cases h1 : k' = k
    · subst h1
      simp [upsert, lookup]
      split <;> simp_all [lookup]
    · simp only [upsert, if_neg h1, lookup, ih]
      by_cases h2 : k' = q
      · subst h2
        have hkq : ¬ k = k' := fun hh => h1 hh.symm
        simp [hkq]
      · simp [h2]

theorem foldl_upsert_lookup (kvs : List (Str × Str)) (m : AList) (k : Str) :
    lookup (kvs.foldl (fun acc kv => upsert acc kv.1 kv.2) m) k =
      match lastVal kvs k with
      | some v => some v
      | none => lookup m k := by
  induction kvs generalizing m with
  | nil => simp [lastVal]
  | cons kv kvs ih =>
    obtain ⟨k', v'⟩ := kv
    simp only [List.foldl_cons, lastVal, ih, lookup_upsert]
    cases h : lastVal kvs k with
    | some v => simp
    | none => by_cases hk : k' = k <;> simp [hk]

/- Lemmas about the split functions. -/

theorem splitChar_ne_nil (sep : Char) (s : Str) : splitChar sep s ≠ [] := by
  cases s with
  | nil => simp [splitChar]
  | cons c rest =>
    simp only [splitChar]
    split
    · simp
    · split <;> simp

theorem splitCRLF_ne_nil (s : Str) : splitCRLF s ≠ [] := by
  unfold splitCRLF
  split
  · simp
  · simp
  · split <;> simp

theorem splitN2Char_eq_none_iff (sep : Char) (s : Str) :
    splitN2Char sep s = none ↔ sep ∉ s := by
  induction s with
  | nil => simp [splitN2Char]
  | cons c rest ih =>
    simp only [splitN2Char, List.mem_cons]
    by_cases hc : c = sep
    · subst hc
      simp
    · have hsc : ¬ sep = c := fun hh => hc hh.symm
      simp [hc, ih, hsc]

theorem splitN2Char_append (sep : Char) (p q : Str) (hp : sep ∉ p) :
    splitN2Char sep (p ++ sep :: q) = some (p, q) := by
  induction p with
  | nil => simp [splitN2Char]
  | cons c p ih =>
    simp only [List.mem_cons, not_or] at hp
    have hc : ¬ c = sep := fun hh => hp.1 hh.symm
    simp [splitN2Char, hc, ih hp.2]

theorem splitN2Char_eq_some (sep : Char) (s a b : Str)
    (h : splitN2Char sep s = some (a, b)) : s = a ++ sep :: b ∧ sep ∉ a := by
  induction s generalizing a b with
  | nil => simp [splitN2Char] at h
  | cons c rest ih =>
    simp only [splitN2Char] at h
    by_cases hc : c = sep
    · subst hc
      simp at h
      obtain ⟨ha, hb⟩ := h
      subst ha
      subst hb
      simp
    · simp only [if_neg hc, Option.map_eq_some'] at h
      obtain ⟨p, hs, heq⟩ := h
      obtain ⟨a', b'⟩ := p
      simp only [Prod.mk.injEq] at heq
      obtain ⟨ha, hb⟩ := heq
      subst ha
      subst hb
      obtain ⟨hrest, hmem⟩ := ih a' b' hs
      subst hrest
      refine ⟨by simp, ?_⟩
      simp only [List.mem_cons, not_or]
      exact ⟨fun hh => hc hh.symm, hmem⟩

/- Projection lemmas unfolding the embedded functions. -/

theorem parseHttpRequest_body (raw : Str) :
    (parseHttpRequest raw).body =
      match firstEmptyIdx (splitCRLF raw) with
      | none => []
      | some i =>
        if 0 < i ∧ i < (splitCRLF raw).length - 1 then
          joinCRLF ((splitCRLF raw).drop (i + 1))
        else [] := rfl

theorem parseHttpRequest_requestLine (raw : Str) :
    ((parseHttpRequest raw).method, (parseHttpRequest raw).path,
      (parseHttpRequest raw).queryParams) =
      match splitCRLF raw with
      | [] => ([], [], [])
      | l0 :: _ =>
        match splitChar ' ' l0 with
        | m :: rawPath :: _ =>
          (m, (parseQueryParams rawPath).1, (parseQueryParams rawPath).2)
        | _ => (([] : Str), ([] : Str), ([] : AList)) := rfl

/-- C1: the spec and the dead `else if` branch intend status 500 to carry
the reason phrase `"Internal Server Error"`, but `formatResponse` checks
`StatusCode != 200` first, so 500 actually yields `"Not Found"`: the claim
fails on the code at `StatusCode = 500`. -/
theorem c1_status_500_reason_not_found :
    statusText 500 = str "Not Found"
    ∧ statusText 500 ≠ str "Internal Server Error"
    ∧ (formatResponse (str "D")
        { statusCode := 500, headers := [], body := [] }).1
      = str "HTTP/1.1 500 Not Found\r\nDate: D\r\nContent-Length: 0\r\n\r\n" := by
  decide

/-- C2 counterexample: for the raw buffer `"\r\nX"` the CRLF-split lines
contain an empty line at index 0 which is not the last line, and the
CRLF-rejoin of the lines after it is `"X"`, yet `parseHttpRequest` leaves
the body empty — refuting the claim as stated. -/
theorem c2_counterexample :
    firstEmptyIdx (splitCRLF (str "\r\nX")) = some 0
    ∧ 0 < (splitCRLF (str "\r\nX")).length - 1
    ∧ joinCRLF ((splitCRLF (str "\r\nX")).drop 1) = str "X"
    ∧ (parseHttpRequest (str "\r\nX")).body ≠
        joinCRLF ((splitCRLF (str "\r\nX")).drop 1)
    ∧ (parseHttpRequest (str "\r\nX")).body = [] := by
  decide

/-- C2 (amended): body is the CRLF-rejoin of all lines strictly after the
first empty line provided that line is neither the first nor the last of
the split; if the boundary is the first line, the last line, or absent,
the body is the empty string. -/
theorem c2_body_amended (raw : Str) :
    (firstEmptyIdx (splitCRLF raw) = none → (parseHttpRequest raw).body = [])
    ∧ (∀ i, firstEmptyIdx (splitCRLF raw) = some i →
        (0 < i → i < (splitCRLF raw).length - 1 →
          (parseHttpRequest raw).body = joinCRLF ((splitCRLF raw).drop (i + 1)))
        ∧ (i = 0 ∨ i = (splitCRLF raw).length - 1 →
          (parseHttpRequest raw).body = [])) := by
  have hbody := parseHttpRequest_body raw
  constructor
  · intro h
    simp only [h] at hbody
    exact hbody
  · intro i hi
    simp only [hi] at hbody
    constructor
    · intro h1 h2
      rw [hbody, if_pos ⟨h1, h2⟩]
    · intro hcase
      rw [hbody]
      apply if_neg
      rintro ⟨h1, h2⟩
      rcases hcase with rfl | hlast
      · exact absurd h1 (by simp)
      · omega

/-- C2 witness: a request whose boundary line is interior, evaluated
through the amended theorem. -/
theorem c2_body_amended_witness :
    (parseHttpRequest (str "A\r\n\r\nB\r\nC")).body = str "B\r\nC" :=
  (((c2_body_amended (str "A\r\n\r\nB\r\nC")).2 1 (by decide)).1
    (by decide) (by decide)).trans (by decide)

/-- The query-parameter fold of `parseQueryParams` equals first dropping
the tokens without an equals sign and then upserting the key–value pairs
in order. -/
theorem foldl_params_eq (toks : List Str) (m : AList) :
    toks.foldl
      (fun params param =>
        match splitN2Char '=' param with
        | some (k, v) => upsert params k v
        | none => params)
      m
    = (toks.filterMap (splitN2Char '=')).foldl
        (fun acc kv => upsert acc kv.1 kv.2) m := by
  induction toks generalizing m with
  | nil => rfl
  | cons t toks ih =>
    simp only [List.foldl_cons, List.filterMap_cons]
    cases h : splitN2Char '=' t with
    | none => simp [h, ih]
    | some kv =>
      obtain ⟨k, v⟩ := kv
      simp [h, ih]

/-- C5: the query-string decoder splits the raw target on the first
question mark only; without one the whole string is the path with an empty
mapping; the path never contains a question mark; with one, the path is
the prefix before it and the recorded value of each key is the value of
the last ampersand-separated token containing an equals sign with that
key, split at its first equals sign, stored verbatim (tokens without an
equals sign are dropped, later duplicates overwrite earlier ones). -/
theorem c5_query_params (raw : Str) :
    ('?' ∉ raw → parseQueryParams raw = (raw, []))
    ∧ '?' ∉ (parseQueryParams raw).1
    ∧ (∀ p q, raw = p ++ '?' :: q → '?' ∉ p →
        (parseQueryParams raw).1 = p
        ∧ ∀ k, lookup (parseQueryParams raw).2 k =
            lastVal ((splitChar '&' q).filterMap (splitN2Char '=')) k) := by
  refine ⟨?_, ?_, ?_⟩
  · intro h
    have hn : splitN2Char '?' raw = none := (splitN2Char_eq_none_iff '?' raw).mpr h
    simp [parseQueryParams, hn]
  · cases hs : splitN2Char '?' raw with
    | none =>
      have hmem := (splitN2Char_eq_none_iff '?' raw).mp hs
      simp [parseQueryParams, hs, hmem]
    | some pq =>
      obtain ⟨p, q⟩ := pq
      have hp := (splitN2Char_eq_some '?' raw p q hs).2
      simp [parseQueryParams, hs, hp]
  · intro p q hraw hp
    subst hraw
    have hs : splitN2Char '?' (p ++ '?' :: q) = some (p, q) :=
      splitN2Char_append '?' p q hp
    constructor
    · simp [parseQueryParams, hs]
    · intro k
      simp only [parseQueryParams, hs]
      rw [foldl_params_eq, foldl_upsert_lookup]
      cases hlv : lastVal ((splitChar '&' q).filterMap (splitN2Char '=')) k with
      | none => simp [hlv, lookup]
      | some v => simp [hlv]

/-- C5 witness: the target `"a?b=1&c&b=2"` has path `"a"`; the token `c`
is dropped and the later `b=2` overwrites `b=1`. -/
theorem c5_query_params_witness :
    lookup (parseQueryParams (str "a?b=1&c&b=2")).2 (str "b") = some (str "2") :=
  ((((c5_query_params (str "a?b=1&c&b=2")).2.2 (str "a") (str "b=1&c&b=2")
    (by decide) (by decide)).2) (str "b")).trans (by decide)

/-- C6: the first CRLF-separated line is split on single spaces; with at
least two tokens the method is the first token and the path and query
parameters come from the query-string decoder applied to the second
token; with fewer than two tokens the method and path stay empty (the
parser is total, so no error is possible). -/
theorem c6_request_line (raw : Str) :
    (∀ m p rest, splitChar ' ' ((splitCRLF raw).headD []) = m :: p :: rest →
      (parseHttpRequest raw).method = m
      ∧ (parseHttpRequest raw).path = (parseQueryParams p).1
      ∧ (parseHttpRequest raw).queryParams = (parseQueryParams p).2)
    ∧ ((splitChar ' ' ((splitCRLF raw).headD [])).length < 2 →
      (parseHttpRequest raw).method = [] ∧ (parseHttpRequest raw).path = []) := by
  have hline := parseHttpRequest_requestLine raw
  cases hsplit : splitCRLF raw with
  | nil => exact absurd hsplit (splitCRLF_ne_nil raw)
  | cons l0 ls =>
    simp only [hsplit, List.headD_cons] at hline ⊢
    constructor
    · intro m p rest hparts
      simp only [hparts, Prod.mk.injEq] at hline
      exact ⟨hline.1, hline.2.1, hline.2.2⟩
    · intro hlen
      cases hparts : splitChar ' ' l0 with
      | nil => exact absurd hparts (splitChar_ne_nil ' ' l0)
      | cons t ts =>
        cases ts with
        | nil =>
          simp only [hparts, Prod.mk.injEq] at hline
          exact ⟨hline.1, hline.2.1⟩
        | cons t2 ts2 =>
          rw [hparts] at hlen
          simp only [List.length_cons] at hlen
          omega

/-- C6 witness: a well-formed request line, evaluated through the
theorem. -/
theorem c6_request_line_witness :
    (parseHttpRequest (str "GET /a?x=1 HTTP/1.1\r\nHost: h\r\n\r\n")).method
        = str "GET"
    ∧ (parseHttpRequest (str "GET /a?x=1 HTTP/1.1\r\nHost: h\r\n\r\n")).path
        = (parseQueryParams (str "/a?x=1")).1
    ∧ (parseHttpRequest (str "GET /a?x=1 HTTP/1.1\r\nHost: h\r\n\r\n")).queryParams
        = (parseQueryParams (str "/a?x=1")).2 :=
  (c6_request_line (str "GET /a?x=1 HTTP/1.1\r\nHost: h\r\n\r\n")).1
    (str "GET") (str "/a?x=1") [str "HTTP/1.1"] (by decide)

/-- Reading any key through the conditional default-injection pattern of
`formatResponse` (insert only when absent). -/
theorem lookup_match_upsert (m : AList) (k v q : Str) :
    lookup
      (match lookup m k with
        | some _ => m
        | none => upsert m k v) q
      = if lookup m k = none ∧ k = q then some v else lookup m q := by
  cases h : lookup m k with
  | some w => simp [h]
  | none => simp [h, lookup_upsert]

/-- The header map carried by the response after `formatResponse`, with
the two conditional insertions spelled out. -/
theorem formatResponse_headers (now : Str) (resp : Response) :
    (formatResponse now resp).2.headers =
      match lookup
        (match lookup resp.headers (str "Date") with
          | some _ => resp.headers
          | none => upsert resp.headers (str "Date") now)
        (str "Content-Length") with
      | some _ =>
        match lookup resp.headers (str "Date") with
        | some _ => resp.headers
        | none => upsert resp.headers (str "Date") now
      | none =>
        upsert
          (match lookup resp.headers (str "Date") with
            | some _ => resp.headers
            | none => upsert resp.headers (str "Date") now)
          (str "Content-Length") (natToStr resp.body.length) := rfl

/-- Reading any key from the formatted response's header map. -/
theorem formatResponse_lookup (now : Str) (resp : Response) (q : Str) :
    lookup (formatResponse now resp).2.headers q =
      if lookup resp.headers (str "Content-Length") = none
          ∧ str "Content-Length" = q
      then some (natToStr resp.body.length)
      else if lookup resp.headers (str "Date") = none ∧ str "Date" = q
      then some now
      else lookup resp.headers q := by
  have hDC : ¬ (str "Date" = str "Content-Length") := by decide
  rw [formatResponse_headers]
  rw [lookup_match_upsert]
  rw [lookup_match_upsert, lookup_match_upsert]
  simp [hDC]

/-- C3: when the handler did not set `Content-Length`, the formatted
response carries a `Content-Length` header whose value is the decimal
byte length of the body; when the handler set it, the handler's value
appears instead. -/
theorem c3_content_length (now : Str) (resp : Response) :
    (lookup resp.headers (str "Content-Length") = none →
      lookup (formatResponse now resp).2.headers (str "Content-Length")
        = some (natToStr resp.body.length))
    ∧ (∀ v, lookup resp.headers (str "Content-Length") = some v →
      lookup (formatResponse now resp).2.headers (str "Content-Length")
        = some v) := by
  have hDC : ¬ (str "Date" = str "Content-Length") := by decide
  constructor
  · intro h
    rw [formatResponse_lookup]
    simp [h]
  · intro v h
    rw [formatResponse_lookup]
    simp [h, hDC]

/-- C3 witness: a response without `Content-Length` gets the body length
injected; one with `Content-Length: 7` keeps the handler's value. -/
theorem c3_content_length_witness :
    lookup (formatResponse (str "D")
        { statusCode := 200, headers := [], body := str "hi" }).2.headers
      (str "Content-Length")
      = some (natToStr (str "hi").length)
    ∧ lookup (formatResponse (str "D")
        { statusCode := 200, headers := [(str "Content-Length", str "7")],
          body := str "hi" }).2.headers
      (str "Content-Length")
      = some (str "7") :=
  ⟨(c3_content_length (str "D")
      { statusCode := 200, headers := [], body := str "hi" }).1 (by decide),
    (c3_content_length (str "D")
      { statusCode := 200, headers := [(str "Content-Length", str "7")],
        body := str "hi" }).2 (str "7") (by decide)⟩

/-- C4: the formatter never overwrites a handler-set header: every key
already present keeps exactly its handler-set value, the `Date` and
`Content-Length` defaults are injected only when the key is absent, and
every key other than those two reads back unchanged. -/
theorem c4_no_overwrite (now : Str) (resp : Response) :
    (∀ k v, lookup resp.headers k = some v →
      lookup (formatResponse now resp).2.headers k = some v)
    ∧ (lookup resp.headers (str "Date") = none →
      lookup (formatResponse now resp).2.headers (str "Date") = some now)
    ∧ (lookup resp.headers (str "Content-Length") = none →
      lookup (formatResponse now resp).2.headers (str "Content-Length")
        = some (natToStr resp.body.length))
    ∧ (∀ k, ¬ k = str "Date" → ¬ k = str "Content-Length" →
      lookup (formatResponse now resp).2.headers k = lookup resp.headers k) := by
  have hDC : ¬ (str "Date" = str "Content-Length") := by decide
  have hCD : ¬ (str "Content-Length" = str "Date") := by decide
  refine ⟨?_, ?_, ?_, ?_⟩
  · intro k v h
    rw [formatResponse_lookup]
    by_cases hCL : str "Content-Length" = k
    · subst hCL
      simp [h, hDC]
    · by_cases hD : str "Date" = k
      · subst hD
        simp [h, hCD]
      · simp [hCL, hD, h]
  · intro h
    rw [formatResponse_lookup]
    simp [h, hDC, hCD]
  · intro h
    rw [formatResponse_lookup]
    simp [h]
  · intro k h1 h2
    rw [formatResponse_lookup]
    have h1' : ¬ (str "Date" = k) := fun hh => h1 hh.symm
    have h2' : ¬ (str "Content-Length" = k) := fun hh => h2 hh.symm
    simp [h1', h2']

/-- C4 witness: a handler-set `Date` header survives formatting
unchanged. -/
theorem c4_no_overwrite_witness :
    lookup (formatResponse (str "NOW")
        { statusCode := 200, headers := [(str "Date", str "X")],
          body := [] }).2.headers
      (str "Date") = some (str "X") :=
  (c4_no_overwrite (str "NOW")
      { statusCode := 200, headers := [(str "Date", str "X")], body := [] }).1
    (str "Date") (str "X") (by decide)

/-- C10: `formatResponse` extends its argument's header map in place
(modelled as the returned response): afterwards both a `Date` and a
`Content-Length` key are always present, with the injected defaults when
they were absent, while the status code and body are untouched. -/
theorem c10_format_mutation (now : Str) (resp : Response) :
    (lookup (formatResponse now resp).2.headers (str "Date")).isSome
    ∧ (lookup (formatResponse now resp).2.headers (str "Content-Length")).isSome
    ∧ (lookup resp.headers (str "Date") = none →
      lookup (formatResponse now resp).2.headers (str "Date") = some now)
    ∧ (lookup resp.headers (str "Content-Length") = none →
      lookup (formatResponse now resp).2.headers (str "Content-Length")
        = some (natToStr resp.body.length))
    ∧ (formatResponse now resp).2.statusCode = resp.statusCode
    ∧ (formatResponse now resp).2.body = resp.body := by
  have hDC : ¬ (str "Date" = str "Content-Length") := by decide
  have hCD : ¬ (str "Content-Length" = str "Date") := by decide
  refine ⟨?_, ?_, ?_, ?_, rfl, rfl⟩
  · rw [formatResponse_lookup]
    cases h : lookup resp.headers (str "Date") with
    | none => simp [h, hCD]
    | some w => simp [h, hCD]
  · rw [formatResponse_lookup]
    cases h : lookup resp.headers (str "Content-Length") with
    | none => simp [h]
    | some w => simp [h, hDC]
  · intro h
    rw [formatResponse_lookup]
    simp [h, hDC, hCD]
  · intro h
    rw [formatResponse_lookup]
    simp [h]

/-- C10 witness: starting from an empty header map, both defaults are
present after formatting. -/
theorem c10_format_mutation_witness :
    lookup (formatResponse (str "NOW")
        { statusCode := 200, headers := [], body := [] }).2.headers
      (str "Date") = some (str "NOW") :=
  (c10_format_mutation (str "NOW")
      { statusCode := 200, headers := [], body := [] }).2.2.1 (by decide)

/-- C7: `AddRoute` appends the new route at the end of the ordered route
sequence without validation, and `matchRoute` scans in insertion order, so
for every table — duplicates included — the earliest-registered route
whose method and path both equal the request's wins. -/
theorem c7_register_and_match {α : Type} (s : List (Route α)) (m p : Str)
    (h : α) (req : Request) :
    addRoute s m p h = s ++ [⟨m, p, h⟩]
    ∧ (∀ pre r post, s = pre ++ r :: post →
        r.method = req.method → r.path = req.path →
        (∀ r' ∈ pre, ¬ (r'.method = req.method ∧ r'.path = req.path)) →
        matchRoute s req = some r.handler) := by
  refine ⟨rfl, ?_⟩
  intro pre r post hs hm hp
  subst hs
  induction pre with
  | nil =>
    intro _
    simp only [List.nil_append, matchRoute]
    rw [if_pos ⟨hm, hp⟩]
  | cons r' pre ih =>
    intro hpre
    have h1 := hpre r' (by simp)
    simp only [List.cons_append, matchRoute]
    rw [if_neg h1]
    exact ih fun x hx => hpre x (by simp [hx])

/-- C7 witness: two routes registered for the same method and path; the
first-registered handler wins. -/
theorem c7_register_and_match_witness :
    matchRoute
      (addRoute (addRoute ([] : List (Route Nat)) (str "GET") (str "/x") 1)
        (str "GET") (str "/x") 2)
      { method := str "GET", path := str "/x", headers := [], body := [],
        queryParams := [] }
      = some 1 :=
  (c7_register_and_match
      (addRoute (addRoute ([] : List (Route Nat)) (str "GET") (str "/x") 1)
        (str "GET") (str "/x") 2)
      (str "POST") (str "/y") 3
      { method := str "GET", path := str "/x", headers := [], body := [],
        queryParams := [] }).2
    [] ⟨str "GET", str "/x", 1⟩ [⟨str "GET", str "/x", 2⟩]
    rfl rfl rfl (by simp)

/-- C8: `matchRoute` is a pure function of the request's method and path:
two requests agreeing on those fields produce the same result on every
route table, and the result is `none` exactly when no route's method and
path both equal the request's. -/
theorem c8_match_pure {α : Type} (s : List (Route α)) (req₁ req₂ : Request)
    (hm : req₁.method = req₂.method) (hp : req₁.path = req₂.path) :
    matchRoute s req₁ = matchRoute s req₂
    ∧ (matchRoute s req₁ = none ↔
        ∀ r ∈ s, ¬ (r.method = req₁.method ∧ r.path = req₁.path)) := by
  induction s with
  | nil => simp [matchRoute]
  | cons r rs ih =>
    have hcond : (r.method = req₁.method ∧ r.path = req₁.path)
        ↔ (r.method = req₂.method ∧ r.path = req₂.path) := by
      rw [hm, hp]
    by_cases hc : r.method = req₁.method ∧ r.path = req₁.path
    · constructor
      · simp only [matchRoute]
        rw [if_pos hc, if_pos (hcond.mp hc)]
      · simp only [matchRoute]
        rw [if_pos hc]
        simp [hc]
    · constructor
      · simp only [matchRoute]
        rw [if_neg hc, if_neg (fun hh => hc (hcond.mpr hh))]
        exact ih.1
      · simp only [matchRoute]
        rw [if_neg hc]
        rw [ih.2]
        simp [hc]
        exact fun _ h1 h2 => hc ⟨h1, h2⟩

/-- C8 witness: two requests sharing method and path but with different
query parameters, headers and body match identically. -/
theorem c8_match_pure_witness :
    matchRoute [(⟨str "GET", str "/x", 7⟩ : Route Nat)]
      ⟨str "GET", str "/x", [], [], []⟩
    = matchRoute [(⟨str "GET", str "/x", 7⟩ : Route Nat)]
      ⟨str "GET", str "/x", [(str "A", str "b")], str "payload",
        [(str "k", str "v")]⟩ :=
  (c8_match_pure [(⟨str "GET", str "/x", 7⟩ : Route Nat)]
    ⟨str "GET", str "/x", [], [], []⟩
    ⟨str "GET", str "/x", [(str "A", str "b")], str "payload",
      [(str "k", str "v")]⟩
    rfl rfl).1

/-- C9: when no route matches, the connection handler turns the default
response — status 200, `Content-Type: text/plain`, the fixed
`Server: GoCustomHTTP/1.0` identifier, empty body — into a 404 whose body
is the not-found message carrying the requested path; the miss is an
ordinary result, not an error. -/
theorem c9_not_found (routes : List (Route Handler)) (req : Request)
    (h : matchRoute routes req = none) :
    buildResponse routes req =
      { statusCode := 404
        headers := defaultResponse.headers
        body := str "404 Not Found: " ++ req.path }
    ∧ defaultResponse.statusCode = 200
    ∧ lookup defaultResponse.headers (str "Content-Type")
        = some (str "text/plain")
    ∧ lookup defaultResponse.headers (str "Server")
        = some (str "GoCustomHTTP/1.0")
    ∧ defaultResponse.body = [] := by
  refine ⟨?_, rfl, by decide, by decide, rfl⟩
  simp only [buildResponse, h]

/-- C9 witness: an empty route table and a request for `/missing` produce
the 404 response whose body names the path. -/
theorem c9_not_found_witness :
    buildResponse []
      { method := str "GET", path := str "/missing", headers := [],
        body := [], queryParams := [] }
    = { statusCode := 404
        headers := defaultResponse.headers
        body := str "404 Not Found: " ++ str "/missing" } :=
  (c9_not_found []
    { method := str "GET", path := str "/missing", headers := [],
      body := [], queryParams := [] } rfl).1

end GoHttp
